import Mathlib

/-!
Verification of the paginated user-lookup subsystem of the
CorrespondenceSolution repository (multiselect lookup PCF control).

The TypeScript sources embedded here are:
- `helpers/SystemUserService.ts` (query builder, cursor cache, pagination),
- `components/SystemUserForwardComponent.tsx` (selection state, search/page
  transitions, email serialization and parsing),
- `helpers/SystemUserLookup.tsx` (the `loadUsers` response application).

JavaScript strings are modelled as `List Char` (`Str`); the remote Web API
call is modelled by passing the list of raw entities a query returned into
the state-transition functions, exactly where the source awaits
`context.webAPI.retrieveMultipleRecords`.
-/

namespace Correspondence

/-- JavaScript strings are modelled as lists of characters. -/
abbrev Str := List Char

/-- The single-quote character, written via its code point. -/
def quoteChar : Char := Char.ofNat 39

/-- JS `String.prototype.trim()`: strip whitespace from both ends. -/
def trim (s : Str) : Str :=
  ((s.dropWhile Char.isWhitespace).reverse.dropWhile Char.isWhitespace).reverse

/-- Helper for `words`: `acc` is the current word, reversed. -/
def wordsAux : Str → Str → List Str
  | [], acc => if acc.isEmpty then [] else [acc.reverse]
  | c :: cs, acc =>
    if c.isWhitespace then
      if acc.isEmpty then wordsAux cs [] else acc.reverse :: wordsAux cs []
    else wordsAux cs (c :: acc)

/-- Splitting a string into maximal runs of non-whitespace characters.
On a trimmed non-empty string this is JS `s.split(/\s+/)`. -/
def words (s : Str) : List Str := wordsAux s []

/-- JS `s.split(/\s+/)` as used in `buildSearchFilter`, where the argument
is `searchTerm.trim()`: on the empty string JS yields `[""]`, otherwise (a
trimmed string) the list of whitespace-separated words. -/
def jsSplitWs (s : Str) : List Str :=
  if s.isEmpty then [[]] else words s

/-- JS `searchTerm.replace(/'/g, "''")`: double every single quote. -/
def escQ : Str → Str
  | [] => []
  | c :: cs => if c = quoteChar then quoteChar :: quoteChar :: escQ cs else c :: escQ cs

/-- JS `Array.prototype.join(sep)` restricted to string arrays. -/
def joinWith (sep : Str) : List Str → Str
  | [] => []
  | [x] => x
  | x :: xs => x ++ sep ++ joinWith sep xs

/-- `SystemUser` interface of `SystemUserService.ts`. The optional fields
are `Option`s; `parseEmailsToUsers` builds records that omit them. -/
structure SystemUser where
  systemuserid : Str
  firstname : Str
  lastname : Str
  internalemailaddress : Str
  isdisabled : Option Bool
  domainname : Option Str
  title : Option Str
deriving DecidableEq, Repr

/-- `PaginationInfo` interface of `SystemUserService.ts`. -/
structure PaginationInfo where
  currentPage : Nat
  pageSize : Nat
  totalRecords : Nat
  totalPages : Nat
  hasNextPage : Bool
  hasPreviousPage : Bool
deriving DecidableEq, Repr

/-- `SystemUserSearchResult` interface of `SystemUserService.ts`. -/
structure SystemUserSearchResult where
  users : List SystemUser
  pagination : PaginationInfo
deriving DecidableEq, Repr

/-- The mutable fields of class `SystemUserService`: the page size and the
cursor cache `lastUserIdPerPage : Map<number, string>` (the `pageData`
field of the source is written only by `clearCache` and never read, so it
is not modelled). The `Map` is modelled as an association list. -/
structure ServiceState where
  pageSize : Nat
  lastUserIdPerPage : List (Nat × Str)
deriving DecidableEq, Repr

/-- JS `Map.prototype.get`. -/
def mapGet (m : List (Nat × Str)) (k : Nat) : Option Str :=
  (m.find? (fun p => p.1 == k)).map (fun p => p.2)

/-- JS `Map.prototype.set`: overwrite in place if the key exists, else append. -/
def mapSet (m : List (Nat × Str)) (k : Nat) (v : Str) : List (Nat × Str) :=
  if m.any (fun p => p.1 == k) then
    m.map (fun p => if p.1 == k then (k, v) else p)
  else m ++ [(k, v)]

/-- `clearCache()` of `SystemUserService`. -/
def clearCache (st : ServiceState) : ServiceState :=
  { st with lastUserIdPerPage := [] }

/-- `setPageSize(size)` of `SystemUserService`: sets the size and clears the cache. -/
def setPageSize (st : ServiceState) (size : Nat) : ServiceState :=
  { pageSize := size, lastUserIdPerPage := [] }

/-- `buildSearchFilter` of `SystemUserService.ts` (lines 256-284), as the
array `combinedFilters` it joins: the three `startswith` clauses on
firstname/lastname/email built from the quote-escaped term, plus — when
`searchTerm.trim().split(/\s+/).length > 1` — the two paired clauses built
from the first two words ("First Last" and "Last First" styles). -/
def combinedFilters (searchTerm : Str) : List Str :=
  if 1 < (jsSplitWs (trim searchTerm)).length then
    ["startswith(firstname,'".data ++ escQ searchTerm ++ "')".data,
     "startswith(lastname,'".data ++ escQ searchTerm ++ "')".data,
     "startswith(internalemailaddress,'".data ++ escQ searchTerm ++ "')".data,
     "(startswith(firstname,'".data ++ escQ ((jsSplitWs (trim searchTerm)).getD 0 [])
       ++ "') and startswith(lastname,'".data ++ escQ ((jsSplitWs (trim searchTerm)).getD 1 [])
       ++ "'))".data,
     "(startswith(lastname,'".data ++ escQ ((jsSplitWs (trim searchTerm)).getD 0 [])
       ++ "') and startswith(firstname,'".data ++ escQ ((jsSplitWs (trim searchTerm)).getD 1 [])
       ++ "'))".data]
  else
    ["startswith(firstname,'".data ++ escQ searchTerm ++ "')".data,
     "startswith(lastname,'".data ++ escQ searchTerm ++ "')".data,
     "startswith(internalemailaddress,'".data ++ escQ searchTerm ++ "')".data]

/-- `buildSearchFilter`'s return value: the clauses joined with `' or '`
and wrapped in parentheses. -/
def buildSearchFilter (searchTerm : Str) : Str :=
  "(".data ++ joinWith " or ".data (combinedFilters searchTerm) ++ ")".data

/-- The three unconditional filters of `buildODataQueryWithCursor`:
active, AD-joined (non-null domain), titled users. -/
def baseFilters : List Str :=
  ["isdisabled eq false".data, "domainname ne null".data, "title ne null".data]

/-- The base filters plus the search filter, added when a non-blank term is
present (`searchTerm && searchTerm.trim()`), built from the trimmed term. -/
def withSearchFilters (searchTerm : Option Str) : List Str :=
  match searchTerm with
  | none => baseFilters
  | some t => if (trim t).isEmpty then baseFilters else baseFilters ++ [buildSearchFilter (trim t)]

/-- The cursor filter `systemuserid gt '<lastId>'` pushed for pages past
the first when the cursor cache knows the previous page's last id. -/
def cursorClause (lastId : Str) : Str :=
  "systemuserid gt '".data ++ lastId ++ "'".data

/-- The `filters` array assembled by `buildODataQueryWithCursor`
(`SystemUserService.ts` lines 200-232): the three base clauses, the search
filter when a non-blank term is given, and — for `page > 1` — the cursor
clause when the cursor cache holds an entry for `page - 1`. -/
def queryFilters (st : ServiceState) (searchTerm : Option Str) (page : Nat) : List Str :=
  if 1 < page then
    match mapGet st.lastUserIdPerPage (page - 1) with
    | some lastId => withSearchFilters searchTerm ++ [cursorClause lastId]
    | none => withSearchFilters searchTerm
  else withSearchFilters searchTerm

/-- `buildODataQueryWithCursor` of `SystemUserService.ts`: select list,
joined filters, fixed order-by (firstname, lastname, systemuserid — the id
is the unique tiebreaker), and `$top=pageSize`. -/
def buildODataQueryWithCursor (st : ServiceState) (searchTerm : Option Str) (page : Nat) : Str :=
  "?$select=systemuserid,firstname,lastname,internalemailaddress,isdisabled,domainname,title".data
    ++ (if 0 < (queryFilters st searchTerm page).length then
          "&$filter=".data ++ joinWith " and ".data (queryFilters st searchTerm page)
        else [])
    ++ "&$orderby=firstname asc,lastname asc,systemuserid asc".data
    ++ "&$top=".data ++ (toString st.pageSize).data

/-- A raw row returned by the remote store; absent columns are `none`.
`systemuserid` is copied verbatim by the source (no default). -/
structure RawEntity where
  systemuserid : Str
  firstname : Option Str
  lastname : Option Str
  internalemailaddress : Option Str
  isdisabled : Option Bool
  domainname : Option Str
  title : Option Str
deriving DecidableEq, Repr

/-- The row-to-`SystemUser` mapping inside `getActiveUsers` (lines 64-72):
missing fields default to the empty string (`|| ''`) or `false`. -/
def mapEntity (e : RawEntity) : SystemUser :=
  { systemuserid := e.systemuserid,
    firstname := e.firstname.getD [],
    lastname := e.lastname.getD [],
    internalemailaddress := e.internalemailaddress.getD [],
    isdisabled := some (e.isdisabled.getD false),
    domainname := some (e.domainname.getD []),
    title := some (e.title.getD []) }

/-- `getActiveUsers(page, searchTerm)` of `SystemUserService.ts` (success
path), with the store's answer to the built query passed in as `entities`:
maps rows, records the last row's id in the cursor cache keyed by `page`
(only when the page is non-empty), and computes the pagination descriptor
from the hard-coded `totalRecords = 495` with
`totalPages = Math.ceil(495 / pageSize)` (for a positive page size this is
`(495 + pageSize - 1) / pageSize` in natural-number division). -/
def getActiveUsers (st : ServiceState) (page : Nat) (searchTerm : Option Str)
    (entities : List RawEntity) : SystemUserSearchResult × ServiceState :=
  let users := entities.map mapEntity
  let st1 := match users.getLast? with
    | some u => { st with lastUserIdPerPage := mapSet st.lastUserIdPerPage page u.systemuserid }
    | none => st
  let totalRecords := 495
  let totalPages := (totalRecords + st.pageSize - 1) / st.pageSize
  ({ users := users,
     pagination :=
       { currentPage := page, pageSize := st.pageSize, totalRecords := totalRecords,
         totalPages := totalPages, hasNextPage := decide (page < totalPages),
         hasPreviousPage := decide (1 < page) } }, st1)

/-- `getNextPage(currentPage, searchTerm)`: fetches `currentPage + 1`. -/
def getNextPage (st : ServiceState) (currentPage : Nat) (searchTerm : Option Str)
    (entities : List RawEntity) : SystemUserSearchResult × ServiceState :=
  getActiveUsers st (currentPage + 1) searchTerm entities

/-- `getPreviousPage(currentPage, searchTerm)`: fetches `max(1, currentPage - 1)`. -/
def getPreviousPage (st : ServiceState) (currentPage : Nat) (searchTerm : Option Str)
    (entities : List RawEntity) : SystemUserSearchResult × ServiceState :=
  getActiveUsers st (max 1 (currentPage - 1)) searchTerm entities

/-- State of the `SystemUserSearchContent` component
(`SystemUserForwardComponent.tsx` lines 315-327). -/
structure CState where
  searchTerm : Str
  searchResults : List SystemUser
  selectedUsers : List SystemUser
  loading : Bool
  error : Option Str
  hasSearched : Bool
  currentPage : Nat
  totalPages : Nat
  totalRecords : Nat
  hasNextPage : Bool
  hasPreviousPage : Bool
deriving DecidableEq, Repr

/-- The `searchTerm.trim() ? searchTerm.trim() : undefined` idiom the
component uses when handing the term to the service. -/
def searchArg (t : Str) : Option Str :=
  if (trim t).isEmpty then none else some (trim t)

/-- `parseEmailsToUsers` of `SystemUserForwardComponent.tsx` (lines
394-407): split the saved string on `;`, trim each entry, drop empties,
and build identifier-less provisional records. JS `"".split(';')` is
`[""]`, and the leading falsy check returns `[]` on the empty string. -/
def splitSemi : Str → List Str
  | [] => [[]]
  | c :: cs =>
    match splitSemi cs with
    | [] => [[]]
    | h :: t => if c = ';' then [] :: h :: t else (c :: h) :: t

def parseEmailsToUsers (emails : Str) : List SystemUser :=
  if emails.isEmpty then []
  else
    (((splitSemi emails).map trim).filter (fun email => !email.isEmpty)).map
      (fun email =>
        { systemuserid := [], firstname := [], lastname := [],
          internalemailaddress := email,
          isdisabled := none, domainname := none, title := none })

/-- The serialization step of `onUsersSelected` (lines 67-72): map to
email addresses, drop empty/whitespace-only ones (`email && email.trim()`),
join with `;`. -/
def serializeEmails (selectedUsers : List SystemUser) : Str :=
  joinWith ";".data
    ((selectedUsers.map (fun u => u.internalemailaddress)).filter
      (fun email => !email.isEmpty && !(trim email).isEmpty))

/-- The per-candidate test inside `isUserSelected` (lines 455-460):
`(user.systemuserid && user.systemuserid === selectedUser.systemuserid) ||
(user.internalemailaddress === selectedUser.internalemailaddress)`. -/
def isUserSelectedPair (user selectedUser : SystemUser) : Bool :=
  (!user.systemuserid.isEmpty && user.systemuserid == selectedUser.systemuserid)
  || (user.internalemailaddress == selectedUser.internalemailaddress)

/-- `isUserSelected` of `SystemUserForwardComponent.tsx`: `Array.some`
over the selection with the pair test. -/
def isUserSelected (selectedUsers : List SystemUser) (user : SystemUser) : Bool :=
  selectedUsers.any (fun selectedUser => isUserSelectedPair user selectedUser)

/-- `onConfirmSelection` (lines 485-487): hands
`this.state.selectedUsers` — the full selection — to the caller. -/
def onConfirmSelection (cs : CState) : List SystemUser :=
  cs.selectedUsers

/-- `onSearch(page)` of `SystemUserSearchContent` (lines 409-443).
`outcome` is the store's reply to the issued query: `ok` carries the raw
rows, `error` the thrown message. For `page = 1` the cursor cache is
cleared before the fetch. -/
def onSearchC (cs : CState) (st : ServiceState) (page : Nat)
    (outcome : Except Str (List RawEntity)) : CState × ServiceState :=
  let cs0 := { cs with loading := true, error := none }
  let st1 := if page = 1 then clearCache st else st
  match outcome with
  | Except.error msg =>
      ({ cs0 with loading := false,
                  error := some ("Failed to load users: ".data ++ msg),
                  hasSearched := true }, st1)
  | Except.ok entities =>
      let r := getActiveUsers st1 page (searchArg cs.searchTerm) entities
      ({ cs0 with searchResults := r.1.users,
                  currentPage := r.1.pagination.currentPage,
                  totalPages := r.1.pagination.totalPages,
                  totalRecords := r.1.pagination.totalRecords,
                  hasNextPage := r.1.pagination.hasNextPage,
                  hasPreviousPage := r.1.pagination.hasPreviousPage,
                  loading := false, hasSearched := true }, r.2)

/-- The query `getActiveUsers` builds and executes during the component's
`onSearch(page)` call (line 54 of the service), including the page-1
`clearCache` the component performs first. -/
def onSearchQuery (term : Str) (st : ServiceState) (page : Nat) : Str :=
  buildODataQueryWithCursor (if page = 1 then clearCache st else st) (searchArg term) page

/-- `onNextPage` (lines 503-528): no-op unless `hasNextPage`; otherwise
fetch `currentPage + 1` via `getNextPage` with the trimmed-or-undefined
term and apply the result fields. -/
def onNextPageC (cs : CState) (st : ServiceState)
    (outcome : Except Str (List RawEntity)) : CState × ServiceState :=
  if !cs.hasNextPage then (cs, st)
  else
    let cs0 := { cs with loading := true, error := none }
    match outcome with
    | Except.error msg =>
        ({ cs0 with loading := false,
                    error := some ("Failed to load next page: ".data ++ msg) }, st)
    | Except.ok entities =>
        let r := getNextPage st cs.currentPage (searchArg cs.searchTerm) entities
        ({ cs0 with searchResults := r.1.users,
                    currentPage := r.1.pagination.currentPage,
                    totalPages := r.1.pagination.totalPages,
                    totalRecords := r.1.pagination.totalRecords,
                    hasNextPage := r.1.pagination.hasNextPage,
                    hasPreviousPage := r.1.pagination.hasPreviousPage,
                    loading := false }, r.2)

/-- `onPreviousPage` (lines 530-556): no-op unless `hasPreviousPage`;
otherwise the source's simplified behaviour fetches page 1. -/
def onPreviousPageC (cs : CState) (st : ServiceState)
    (outcome : Except Str (List RawEntity)) : CState × ServiceState :=
  if !cs.hasPreviousPage then (cs, st)
  else
    let cs0 := { cs with loading := true, error := none }
    match outcome with
    | Except.error msg =>
        ({ cs0 with loading := false,
                    error := some ("Failed to load previous page: ".data ++ msg) }, st)
    | Except.ok entities =>
        let r := getActiveUsers st 1 (searchArg cs.searchTerm) entities
        ({ cs0 with searchResults := r.1.users,
                    currentPage := r.1.pagination.currentPage,
                    totalPages := r.1.pagination.totalPages,
                    totalRecords := r.1.pagination.totalRecords,
                    hasNextPage := r.1.pagination.hasNextPage,
                    hasPreviousPage := r.1.pagination.hasPreviousPage,
                    loading := false }, r.2)

/-- State of the `SystemUserLookup` component (`SystemUserLookup.tsx`
lines 26-37). -/
structure LookupState where
  users : List SystemUser
  loading : Bool
  error : Option Str
  searchTerm : Str
  currentPage : Nat
  totalPages : Nat
  totalRecords : Nat
  hasNextPage : Bool
  hasPreviousPage : Bool
  selectedUsers : List SystemUser
deriving DecidableEq, Repr

/-- The `setState` that `loadUsers` performs when a fetch response
arrives (`SystemUserLookup.tsx` lines 72-80). Each response, in whatever
order it completes, runs exactly this update; there is no sequence number
or cancellation guard. -/
def loadUsersApply (ls : LookupState) (result : SystemUserSearchResult) : LookupState :=
  { ls with users := result.users,
            currentPage := result.pagination.currentPage,
            totalPages := result.pagination.totalPages,
            totalRecords := result.pagination.totalRecords,
            hasNextPage := result.pagination.hasNextPage,
            hasPreviousPage := result.pagination.hasPreviousPage,
            loading := false }

/-- Scanner mode for OData string-literal syntax: outside any literal,
inside a literal, or just after a quote inside a literal (which is either
the closing quote or the first half of an escaped `''`). -/
inductive LitMode where
  | outside : LitMode
  | inside : LitMode
  | closing : LitMode
deriving DecidableEq, Repr

/-- Scanner state: mode, the literal being accumulated, and the contents
of the literals seen so far. -/
structure ScanSt where
  mode : LitMode
  cur : Str
  acc : List Str
deriving DecidableEq, Repr

/-- One scanner step over a character, implementing the target store's
(OData) string-literal syntax: literals are delimited by single quotes and
an embedded quote is written `''`. -/
def stepLit (st : ScanSt) (c : Char) : ScanSt :=
  match st.mode with
  | LitMode.outside =>
      if c = quoteChar then { mode := LitMode.inside, cur := [], acc := st.acc } else st
  | LitMode.inside =>
      if c = quoteChar then { st with mode := LitMode.closing }
      else { st with cur := st.cur ++ [c] }
  | LitMode.closing =>
      if c = quoteChar then { st with mode := LitMode.inside, cur := st.cur ++ [quoteChar] }
      else { mode := LitMode.outside, cur := [], acc := st.acc ++ [st.cur] }

/-- Run the scanner over a whole string. -/
def runLits (s : Str) : ScanSt :=
  s.foldl stepLit { mode := LitMode.outside, cur := [], acc := [] }

/-- The list of string-literal contents of an OData filter expression
(quote-escaping undone), or `none` if a literal is left unterminated.
A `some` result means every quote pairs up per the store's literal syntax,
and the returned payloads are exactly what a conforming OData parser would
read back out of the literals. -/
def lits (s : Str) : Option (List Str) :=
  match runLits s with
  | { mode := LitMode.outside, cur := _, acc := a } => some a
  | { mode := LitMode.closing, cur := c, acc := a } => some (a ++ [c])
  | { mode := LitMode.inside, cur := _, acc := _ } => none

/-- The literal payloads `buildSearchFilter` is specified to embed: the
raw search term three times, then — in the two-word case — the first and
second word twice (once per paired clause). -/
def searchFilterPayloads (searchTerm : Str) : List Str :=
  if 1 < (jsSplitWs (trim searchTerm)).length then
    [searchTerm, searchTerm, searchTerm,
     (jsSplitWs (trim searchTerm)).getD 0 [], (jsSplitWs (trim searchTerm)).getD 1 [],
     (jsSplitWs (trim searchTerm)).getD 0 [], (jsSplitWs (trim searchTerm)).getD 1 []]
  else [searchTerm, searchTerm, searchTerm]

/-! Concrete sample records used by counterexamples and witnesses. -/

/-- Two distinct enabled users that share an email address. -/
def userSharedMailA : SystemUser :=
  { systemuserid := "USER-001".data, firstname := "Jo".data, lastname := "Ann".data,
    internalemailaddress := "shared@contoso.com".data,
    isdisabled := some false, domainname := some "d".data, title := some "t".data }

def userSharedMailB : SystemUser :=
  { systemuserid := "USER-002".data, firstname := "Mo".data, lastname := "Bee".data,
    internalemailaddress := "shared@contoso.com".data,
    isdisabled := some false, domainname := some "d".data, title := some "t".data }

/-- A selected record whose email contains the `;` separator itself. -/
def userSemicolonMail : SystemUser :=
  { systemuserid := [], firstname := [], lastname := [],
    internalemailaddress := "a@x.com;b@x.com".data,
    isdisabled := none, domainname := none, title := none }

/-- A selection whose emails exercise trimming and empty-dropping. -/
def sampleSelection : List SystemUser :=
  [{ systemuserid := [], firstname := [], lastname := [],
     internalemailaddress := " a@x.com ".data,
     isdisabled := none, domainname := none, title := none },
   { systemuserid := [], firstname := [], lastname := [],
     internalemailaddress := [],
     isdisabled := none, domainname := none, title := none },
   { systemuserid := [], firstname := [], lastname := [],
     internalemailaddress := "c@x.com".data,
     isdisabled := none, domainname := none, title := none }]

/-- A raw store row used to exercise the fetch path. -/
def sampleEntity : RawEntity :=
  { systemuserid := "id-7".data, firstname := some "Bob".data, lastname := some "B".data,
    internalemailaddress := some "bob@x.com".data, isdisabled := some false,
    domainname := some "dom".data, title := some "T".data }

/-- A component state with search term `bob` and no selection. -/
def sampleCState : CState :=
  { searchTerm := "bob".data, searchResults := [], selectedUsers := [],
    loading := false, error := none, hasSearched := false,
    currentPage := 1, totalPages := 1, totalRecords := 0,
    hasNextPage := false, hasPreviousPage := false }

/-- An idle lookup-component state. -/
def sampleLookupState : LookupState :=
  { users := [], loading := false, error := none, searchTerm := "ab".data,
    currentPage := 1, totalPages := 0, totalRecords := 0,
    hasNextPage := false, hasPreviousPage := false, selectedUsers := [] }

/-- The (stale) response for search term `a`. -/
def staleResponseA : SystemUserSearchResult :=
  { users := [userSharedMailA],
    pagination := { currentPage := 1, pageSize := 25, totalRecords := 495,
                    totalPages := 20, hasNextPage := true, hasPreviousPage := false } }

/-- The (current) response for search term `ab`. -/
def freshResponseAB : SystemUserSearchResult :=
  { users := [userSharedMailB],
    pagination := { currentPage := 1, pageSize := 25, totalRecords := 495,
                    totalPages := 20, hasNextPage := true, hasPreviousPage := false } }

/-! Helper lemmas. -/

/-- Strings with different head characters differ. -/
theorem ne_of_headD {a b : Str} (h : a.headD 'z' ≠ b.headD 'z') : a ≠ b :=
  fun he => h (he ▸ rfl)

/-- `Math.ceil(495 / s)` for a positive `s`, i.e. the natural-division
expression the embedding uses, is the mathematical ceiling of `495 / s`. -/
theorem totalPages_eq_ceil (s : Nat) (hs : 0 < s) :
    ((495 + s - 1) / s : Nat) = ⌈(495 : ℚ) / (s : ℚ)⌉₊ := by
  have hdm := Nat.div_add_mod (495 + s - 1) s
  have hmod : (495 + s - 1) % s < s := Nat.mod_lt _ hs
  set q := (495 + s - 1) / s with hqdef
  set r := (495 + s - 1) % s with hrdef
  obtain ⟨M, hM⟩ : ∃ M, s * q = M := ⟨s * q, rfl⟩
  rw [hM] at hdm
  have h1 : 495 ≤ q * s := by rw [mul_comm, hM]; omega
  have h2 : (q - 1) * s < 495 := by
    have hqs : (q - 1) * s = M - s := by rw [Nat.sub_mul, one_mul, mul_comm, hM]
    rw [hqs]; omega
  have hq0 : q ≠ 0 := by
    intro h0
    rw [h0, Nat.mul_zero] at hM
    omega
  have hc : (0 : ℚ) < (s : ℚ) := by exact_mod_cast hs
  rw [eq_comm, Nat.ceil_eq_iff hq0]
  constructor
  · rw [lt_div_iff₀ hc]
    exact_mod_cast h2
  · rw [div_le_iff₀ hc]
    exact_mod_cast h1

/-- Claim C2: for every page `p`, search term and fetch result, the
pagination descriptor returned by `getActiveUsers` under a positive page
size `s` satisfies `totalRecords = 495`,
`totalPages = ceil(totalRecords / s)`, `hasNextPage ↔ p < totalPages` and
`hasPreviousPage ↔ p > 1`; in particular with page size 5 it has
`totalPages = 99`, and page 99 has `hasNextPage = false` and
`hasPreviousPage = true`. -/
theorem c2_pagination_descriptor (st : ServiceState) (p : Nat) (term : Option Str)
    (e : List RawEntity) (hs : 0 < st.pageSize) :
    (getActiveUsers st p term e).1.pagination.totalRecords = 495
    ∧ (getActiveUsers st p term e).1.pagination.totalPages
        = ⌈(495 : ℚ) / (st.pageSize : ℚ)⌉₊
    ∧ ((getActiveUsers st p term e).1.pagination.hasNextPage = true
        ↔ p < (getActiveUsers st p term e).1.pagination.totalPages)
    ∧ ((getActiveUsers st p term e).1.pagination.hasPreviousPage = true ↔ 1 < p)
    ∧ (st.pageSize = 5 →
        (getActiveUsers st p term e).1.pagination.totalPages = 99
        ∧ (p = 99 →
            (getActiveUsers st p term e).1.pagination.hasNextPage = false
            ∧ (getActiveUsers st p term e).1.pagination.hasPreviousPage = true)) := by
  refine ⟨rfl, ?_, ?_, ?_, ?_⟩
  · exact totalPages_eq_ceil st.pageSize hs
  · simp [getActiveUsers]
  · simp [getActiveUsers]
  · intro h5
    constructor
    · simp [getActiveUsers, h5]
    · intro h99
      subst h99
      simp [getActiveUsers, h5]

/-- Witness for C2 at page size 5 and page 99 (the spec scenario). -/
theorem c2_pagination_descriptor_witness :
    0 < (⟨5, []⟩ : ServiceState).pageSize
    ∧ (getActiveUsers ⟨5, []⟩ 99 none []).1.pagination.totalPages = 99
    ∧ (getActiveUsers ⟨5, []⟩ 99 none []).1.pagination.hasNextPage = false
    ∧ (getActiveUsers ⟨5, []⟩ 99 none []).1.pagination.hasPreviousPage = true := by
  have h := c2_pagination_descriptor ⟨5, []⟩ 99 none [] (by decide)
  obtain ⟨-, -, -, -, hsc⟩ := h
  obtain ⟨htp, hnx⟩ := hsc rfl
  exact ⟨by decide, htp, (hnx rfl).1, (hnx rfl).2⟩

/-- Claim C10: the pagination descriptor of `getActiveUsers` is computed
from the hard-coded total 495 only — it does not depend on the search term
or on the rows the query actually returned — so `hasNextPage` is true
whenever `page < ceil(495 / pageSize)` even when the fetched page is empty
under a filtered search. -/
theorem c10_pagination_ignores_results (st : ServiceState) (p : Nat) (t1 t2 : Option Str)
    (e1 e2 : List RawEntity) :
    (getActiveUsers st p t1 e1).1.pagination = (getActiveUsers st p t2 e2).1.pagination
    ∧ (getActiveUsers st p t1 e1).1.pagination.totalRecords = 495
    ∧ (getActiveUsers ⟨25, []⟩ 1 (some "zzzz".data) []).1.users = []
    ∧ (getActiveUsers ⟨25, []⟩ 1 (some "zzzz".data) []).1.pagination.hasNextPage = true :=
  ⟨rfl, rfl, rfl, by decide⟩

/-- Claim C7: page navigation (`onNextPage`, `onPreviousPage`) and
search/reload (`onSearch`) leave `state.selectedUsers` unchanged — on both
the success and the failure paths — and the confirmation action hands the
caller the full current selection, including after navigating. -/
theorem c7_selection_survives_navigation (cs : CState) (st : ServiceState)
    (o : Except Str (List RawEntity)) (p : Nat) :
    (onNextPageC cs st o).1.selectedUsers = cs.selectedUsers
    ∧ (onPreviousPageC cs st o).1.selectedUsers = cs.selectedUsers
    ∧ (onSearchC cs st p o).1.selectedUsers = cs.selectedUsers
    ∧ onConfirmSelection cs = cs.selectedUsers
    ∧ onConfirmSelection (onNextPageC cs st o).1 = cs.selectedUsers
    ∧ onConfirmSelection (onPreviousPageC cs st o).1 = cs.selectedUsers := by
  cases o <;>
    cases hn : cs.hasNextPage <;>
      cases hp : cs.hasPreviousPage <;>
        simp [onNextPageC, onPreviousPageC, onSearchC, onConfirmSelection, hn, hp]

/-- Claim C8 (counterexample): in `SystemUserLookup.loadUsers` each
response applies its own `setState` with no sequence guard, so when the
stale response for term `a` completes after the response for term `ab`,
the final rendered users are the stale ones, not the `ab` ones — refuting
"the final rendered state reflects the most recently requested fetch". -/
theorem c8_out_of_order_counterexample :
    (loadUsersApply (loadUsersApply sampleLookupState freshResponseAB) staleResponseA).users
      = staleResponseA.users
    ∧ (loadUsersApply (loadUsersApply sampleLookupState freshResponseAB) staleResponseA).users
        ≠ freshResponseAB.users := by decide

/-- Claim C8 (amended): responses are applied in completion order — the
state after two overlapping fetches is exactly the state produced by
whichever response completed last, stale or not. -/
theorem c8_completion_order_wins (ls : LookupState) (r1 r2 : SystemUserSearchResult) :
    loadUsersApply (loadUsersApply ls r1) r2 = loadUsersApply ls r2
    ∧ (loadUsersApply (loadUsersApply ls r1) r2).users = r2.users :=
  ⟨rfl, rfl⟩

/-- Claim C5 (counterexample): `isUserSelected` is a disjunction, so two
records with distinct non-empty identifiers but the same email address are
considered the same selection key — refuting "two records with distinct
non-empty identifiers are never considered the same selection key". -/
theorem c5_distinct_ids_matched_counterexample :
    isUserSelected [userSharedMailB] userSharedMailA = true
    ∧ userSharedMailA.systemuserid ≠ []
    ∧ userSharedMailB.systemuserid ≠ []
    ∧ userSharedMailA.systemuserid ≠ userSharedMailB.systemuserid := by decide

/-- Claim C5 (amended): the membership test matches when the probe's
identifier is non-empty and equal to the candidate's, or — regardless of
identifiers — when the email addresses are equal; records with distinct
identifiers and distinct emails never match, and email equality is the
only way records lacking an identifier can match. -/
theorem c5_selection_key_semantics (u v : SystemUser) :
    (isUserSelectedPair u v = true ↔
      ((u.systemuserid ≠ [] ∧ u.systemuserid = v.systemuserid)
        ∨ u.internalemailaddress = v.internalemailaddress))
    ∧ (u.systemuserid ≠ v.systemuserid → u.internalemailaddress ≠ v.internalemailaddress →
        isUserSelectedPair u v = false)
    ∧ (u.systemuserid = [] →
        (isUserSelectedPair u v = true ↔ u.internalemailaddress = v.internalemailaddress)) := by
  have hiff : isUserSelectedPair u v = true ↔
      ((u.systemuserid ≠ [] ∧ u.systemuserid = v.systemuserid)
        ∨ u.internalemailaddress = v.internalemailaddress) := by
    simp [isUserSelectedPair, List.isEmpty_iff, Bool.or_eq_true, Bool.and_eq_true]
  refine ⟨hiff, ?_, ?_⟩
  · intro hid hmail
    cases hb : isUserSelectedPair u v
    · rfl
    · rcases hiff.mp hb with ⟨-, h⟩ | h
      · exact absurd h hid
      · exact absurd h hmail
  · intro hnil
    rw [hiff]
    constructor
    · rintro (⟨hne, -⟩ | h)
      · exact absurd hnil hne
      · exact h
    · exact fun h => Or.inr h

/-- A cursor clause never coincides with a base or search filter: the base
filters start with `i`, `d`, `t` and the search filter with `(`, while a
cursor clause starts with `s` followed by `ystemuserid gt`. -/
theorem cursorClause_notin_withSearch (x : Str) (term : Option Str) :
    cursorClause x ∉ withSearchFilters term := by
  have hhead : (cursorClause x).headD 'z' = 's' := rfl
  have hnotbase : cursorClause x ∉ baseFilters := by
    intro h
    simp only [baseFilters, List.mem_cons, List.not_mem_nil, or_false] at h
    rcases h with h | h | h <;>
      · refine absurd h (ne_of_headD ?_)
        rw [hhead]; decide
  cases term with
  | none => exact hnotbase
  | some t =>
    by_cases he : (trim t).isEmpty
    · simpa only [withSearchFilters, if_pos he] using hnotbase
    · simp only [withSearchFilters, if_neg he, List.mem_append, List.mem_singleton]
      rintro (h | h)
      · exact hnotbase h
      · refine absurd h (ne_of_headD ?_)
        rw [hhead, show (buildSearchFilter (trim t)).headD 'z' = '(' from rfl]
        decide

/-- Claim C1: for `page > 1`, the filter list built by
`buildODataQueryWithCursor` contains the cursor clause
`systemuserid gt '<lastId>'` exactly when the cursor cache holds an entry
for `page - 1` (and for that entry's value only); on a cache miss the
built query is identical to the page-1 query, so the fetch degrades to
page-1 filtering instead of erroring. -/
theorem c1_cursor_clause_iff_cache (st : ServiceState) (term : Option Str) (p : Nat)
    (hp : 1 < p) :
    (∀ lastId, mapGet st.lastUserIdPerPage (p - 1) = some lastId →
        cursorClause lastId ∈ queryFilters st term p)
    ∧ (∀ x, cursorClause x ∈ queryFilters st term p →
        mapGet st.lastUserIdPerPage (p - 1) = some x)
    ∧ (mapGet st.lastUserIdPerPage (p - 1) = none →
        buildODataQueryWithCursor st term p = buildODataQueryWithCursor st term 1) := by
  refine ⟨?_, ?_, ?_⟩
  · intro lastId hsome
    simp [queryFilters, if_pos hp, hsome]
  · intro x hx
    cases hc : mapGet st.lastUserIdPerPage (p - 1) with
    | none =>
      simp only [queryFilters, if_pos hp, hc] at hx
      exact absurd hx (cursorClause_notin_withSearch x term)
    | some lastId =>
      simp only [queryFilters, if_pos hp, hc, List.mem_append, List.mem_singleton] at hx
      rcases hx with hx | hx
      · exact absurd hx (cursorClause_notin_withSearch x term)
      · simp only [cursorClause, List.append_right_inj, List.append_left_inj] at hx
        rw [hx]
  · intro hnone
    have hq : queryFilters st term p = queryFilters st term 1 := by
      simp [queryFilters, if_pos hp, hnone]
    simp [buildODataQueryWithCursor, hq]

/-- Witness for C1 at page 2: a cache hit for page 1 puts the cursor
clause in the filters, and a cache miss reproduces the page-1 query. -/
theorem c1_cursor_clause_iff_cache_witness :
    1 < 2
    ∧ cursorClause "USER-42".data ∈ queryFilters ⟨5, [(1, "USER-42".data)]⟩ none 2
    ∧ buildODataQueryWithCursor (⟨5, []⟩ : ServiceState) none 2
        = buildODataQueryWithCursor (⟨5, []⟩ : ServiceState) none 1 :=
  ⟨by decide,
   (c1_cursor_clause_iff_cache ⟨5, [(1, "USER-42".data)]⟩ none 2 (by decide)).1
     "USER-42".data (by decide),
   (c1_cursor_clause_iff_cache ⟨5, []⟩ none 2 (by decide)).2.2 (by decide)⟩

/-- Claim C4: the component's `onSearch` with `page = 1` clears the
cursor cache before fetching, so the resulting cache holds at most the
page-1 entry recorded by the new fetch itself — the post-fetch cache and
the issued query are independent of whatever cursor entries a previous
search term had left behind. -/
theorem c4_search_reset_clears_cursor (cs : CState) (st st2 : ServiceState)
    (hsz : st.pageSize = st2.pageSize) (e : List RawEntity) :
    (onSearchC cs st 1 (Except.ok e)).2.lastUserIdPerPage
      = (match (e.map mapEntity).getLast? with
         | none => []
         | some u => [(1, u.systemuserid)])
    ∧ (onSearchC cs st 1 (Except.ok e)).2 = (onSearchC cs st2 1 (Except.ok e)).2
    ∧ onSearchQuery cs.searchTerm st 1 = onSearchQuery cs.searchTerm st2 1 := by
  have hcache : ∀ (s3 : ServiceState),
      (onSearchC cs s3 1 (Except.ok e)).2
        = { pageSize := s3.pageSize,
            lastUserIdPerPage :=
              match (e.map mapEntity).getLast? with
              | none => []
              | some u => [(1, u.systemuserid)] } := by
    intro s3
    cases hlast : (e.map mapEntity).getLast? with
    | none => simp [onSearchC, getActiveUsers, clearCache, hlast]
    | some u => simp [onSearchC, getActiveUsers, clearCache, hlast, mapSet]
  refine ⟨?_, ?_, ?_⟩
  · rw [hcache st]
  · rw [hcache st, hcache st2, hsz]
  · simp [onSearchQuery, clearCache, hsz]

/-- Witness for C4: a stale entry for page 3 left by a previous term is
gone after the page-1 search fetch, which records only the new page-1
cursor; the issued query matches the clean-cache query. -/
theorem c4_search_reset_clears_cursor_witness :
    (⟨5, [(3, "stale".data)]⟩ : ServiceState).pageSize = (⟨5, []⟩ : ServiceState).pageSize
    ∧ (onSearchC sampleCState ⟨5, [(3, "stale".data)]⟩ 1
        (Except.ok [sampleEntity])).2.lastUserIdPerPage = [(1, "id-7".data)]
    ∧ onSearchQuery sampleCState.searchTerm ⟨5, [(3, "stale".data)]⟩ 1
        = onSearchQuery sampleCState.searchTerm ⟨5, []⟩ 1 := by
  have h := c4_search_reset_clears_cursor sampleCState ⟨5, [(3, "stale".data)]⟩ ⟨5, []⟩ rfl
    [sampleEntity]
  refine ⟨rfl, ?_, h.2.2⟩
  rw [h.1]
  decide

/-- `splitSemi` never returns the empty list (JS `split` always yields at
least one chunk). -/
theorem splitSemi_ne_nil (s : Str) : splitSemi s ≠ [] := by
  cases s with
  | nil => simp [splitSemi]
  | cons c cs =>
    simp only [splitSemi]
    cases h : splitSemi cs with
    | nil => simp
    | cons a b => by_cases hc : c = ';' <;> simp [hc]

/-- Prepending a semicolon-free chunk extends the first piece of a split. -/
theorem splitSemi_append (x r : Str) (hx : ';' ∉ x) (h : Str) (t : List Str)
    (hr : splitSemi r = h :: t) : splitSemi (x ++ r) = (x ++ h) :: t := by
  induction x with
  | nil => simpa using hr
  | cons c cs ih =>
    have hc : c ≠ ';' := fun hcc => hx (hcc ▸ List.mem_cons_self c cs)
    have ih2 := ih (fun hm => hx (List.mem_cons_of_mem c hm))
    simp [splitSemi, ih2, if_neg hc]

/-- Splitting undoes joining for semicolon-free parts. -/
theorem splitSemi_joinWith (parts : List Str) (hne : parts ≠ [])
    (hsemi : ∀ q ∈ parts, ';' ∉ q) :
    splitSemi (joinWith ";".data parts) = parts := by
  induction parts with
  | nil => exact absurd rfl hne
  | cons x xs ih =>
    cases xs with
    | nil =>
      have hone := splitSemi_append x [] (hsemi x (List.mem_cons_self x [])) [] [] rfl
      simpa [joinWith] using hone
    | cons y ys =>
      obtain ⟨h0, t0, hJ⟩ : ∃ h0 t0,
          splitSemi (joinWith ";".data (y :: ys)) = h0 :: t0 := by
        cases hJ0 : splitSemi (joinWith ";".data (y :: ys)) with
        | nil => exact absurd hJ0 (splitSemi_ne_nil _)
        | cons a b => exact ⟨a, b, rfl⟩
      have hx : ';' ∉ x := hsemi x (List.mem_cons_self x _)
      have hr : splitSemi (';' :: joinWith ";".data (y :: ys)) = [] :: h0 :: t0 := by
        simp [splitSemi, hJ]
      have happ := splitSemi_append x (';' :: joinWith ";".data (y :: ys)) hx []
        (h0 :: t0) hr
      have hih := ih (by simp) (fun q hq => hsemi q (List.mem_cons_of_mem x hq))
      show splitSemi (joinWith ";".data (x :: y :: ys)) = x :: y :: ys
      rw [show joinWith ";".data (x :: y :: ys)
            = (x ++ ";".data) ++ joinWith ";".data (y :: ys) from by simp [joinWith]]
      rw [List.append_assoc]
      rw [show (";".data : Str) ++ joinWith ";".data (y :: ys)
            = ';' :: joinWith ";".data (y :: ys) from rfl]
      rw [happ, List.append_nil, ← hJ, hih]

/-- A join of chunks whose head chunk is non-empty is non-empty. -/
theorem joinWith_semi_ne_nil (a : Str) (rest : List Str) (ha : a ≠ []) :
    joinWith ";".data (a :: rest) ≠ [] := by
  cases rest with
  | nil => simpa [joinWith] using ha
  | cons b bs => simp [joinWith, List.append_eq_nil, ha]

/-- Claim C6 (amended): provided no selected record's email contains the
`;` separator itself, serializing the selection and then seeding a new
selection from the saved string yields exactly the trimmed non-empty
emails of the original records (as a list, hence as a set). -/
theorem c6_serialize_seed_roundtrip (users : List SystemUser)
    (h : users.all (fun u => !u.internalemailaddress.contains ';') = true) :
    (parseEmailsToUsers (serializeEmails users)).map (fun u => u.internalemailaddress)
      = ((users.map (fun u => u.internalemailaddress)).filter
          (fun e => !(trim e).isEmpty)).map trim := by
  have hsem : ∀ e ∈ users.map (fun u => u.internalemailaddress), ';' ∉ e := by
    intro e he
    obtain ⟨u, hu, rfl⟩ := List.mem_map.mp he
    have hall := List.all_eq_true.mp h u hu
    simpa [List.contains, List.elem_iff] using hall
  have hfeq : (users.map (fun u => u.internalemailaddress)).filter
        (fun e => !e.isEmpty && !(trim e).isEmpty)
      = (users.map (fun u => u.internalemailaddress)).filter
        (fun e => !(trim e).isEmpty) := by
    apply List.filter_congr
    intro e _
    cases e <;> rfl
  by_cases hk : (users.map (fun u => u.internalemailaddress)).filter
      (fun e => !e.isEmpty && !(trim e).isEmpty) = []
  · rw [show serializeEmails users
        = joinWith ";".data ((users.map (fun u => u.internalemailaddress)).filter
            (fun e => !e.isEmpty && !(trim e).isEmpty)) from rfl]
    rw [hk, ← hfeq, hk]
    simp [parseEmailsToUsers, joinWith]
  · obtain ⟨k0, krest, hkcons⟩ : ∃ k0 krest,
        (users.map (fun u => u.internalemailaddress)).filter
          (fun e => !e.isEmpty && !(trim e).isEmpty) = k0 :: krest := by
      cases hfil : (users.map (fun u => u.internalemailaddress)).filter
          (fun e => !e.isEmpty && !(trim e).isEmpty) with
      | nil => exact absurd hfil hk
      | cons a b => exact ⟨a, b, rfl⟩
    have hkeptsemi : ∀ e ∈ (users.map (fun u => u.internalemailaddress)).filter
        (fun e => !e.isEmpty && !(trim e).isEmpty), ';' ∉ e :=
      fun e he => hsem e (List.mem_of_mem_filter he)
    have hjoin := splitSemi_joinWith _ hk hkeptsemi
    have hk0 : k0 ≠ [] := by
      have hmem : k0 ∈ (users.map (fun u => u.internalemailaddress)).filter
          (fun e => !e.isEmpty && !(trim e).isEmpty) :=
        hkcons ▸ List.mem_cons_self _ _
      have hp0 := List.of_mem_filter hmem
      simp only [Bool.and_eq_true, Bool.not_eq_true', List.isEmpty_eq_false] at hp0
      exact hp0.1
    have hcond : ¬((serializeEmails users).isEmpty = true) := by
      rw [show serializeEmails users
            = joinWith ";".data ((users.map (fun u => u.internalemailaddress)).filter
                (fun e => !e.isEmpty && !(trim e).isEmpty)) from rfl, hkcons]
      simp only [List.isEmpty_iff]
      exact joinWith_semi_ne_nil k0 krest hk0
    rw [show parseEmailsToUsers (serializeEmails users)
          = (((splitSemi (serializeEmails users)).map trim).filter
              (fun email => !email.isEmpty)).map
              (fun email =>
                { systemuserid := [], firstname := [], lastname := [],
                  internalemailaddress := email,
                  isdisabled := none, domainname := none, title := none }) from by
        rw [parseEmailsToUsers, if_neg hcond]]
    rw [show splitSemi (serializeEmails users)
          = (users.map (fun u => u.internalemailaddress)).filter
              (fun e => !e.isEmpty && !(trim e).isEmpty) from hjoin]
    rw [List.filter_eq_self.mpr ?allkeep]
    case allkeep =>
      intro e he
      obtain ⟨k, hkmem, rfl⟩ := List.mem_map.mp he
      have hpk := List.of_mem_filter hkmem
      simp only [Bool.and_eq_true] at hpk
      exact hpk.2
    rw [List.map_map, hfeq.symm]
    rw [show ((fun u : SystemUser => u.internalemailaddress) ∘
          fun email =>
            ({ systemuserid := [], firstname := [], lastname := [],
               internalemailaddress := email,
               isdisabled := none, domainname := none, title := none } : SystemUser))
          = fun email => email from rfl]
    rw [List.map_id']

/-- Claim C6 (counterexample): an email containing the `;` separator is
split apart by the seed step, so membership is not preserved — refuting
the unconditional round-trip claim. -/
theorem c6_roundtrip_counterexample :
    ((parseEmailsToUsers (serializeEmails [userSemicolonMail])).map
        (fun u => u.internalemailaddress))
      = ["a@x.com".data, "b@x.com".data]
    ∧ "a@x.com;b@x.com".data ∉
        ((parseEmailsToUsers (serializeEmails [userSemicolonMail])).map
          (fun u => u.internalemailaddress))
    ∧ "a@x.com;b@x.com".data ∈
        ((([userSemicolonMail].map (fun u => u.internalemailaddress)).filter
          (fun e => !(trim e).isEmpty)).map trim) := by decide

/-- Witness for C6 on a selection exercising trimming and empty-dropping. -/
theorem c6_serialize_seed_roundtrip_witness :
    sampleSelection.all (fun u => !u.internalemailaddress.contains ';') = true
    ∧ (parseEmailsToUsers (serializeEmails sampleSelection)).map
        (fun u => u.internalemailaddress)
      = ((sampleSelection.map (fun u => u.internalemailaddress)).filter
          (fun e => !(trim e).isEmpty)).map trim :=
  ⟨by decide, c6_serialize_seed_roundtrip sampleSelection (by decide)⟩

/-- Claim C3 (counterexample): the source guards the paired clauses by
`searchWords.length > 1`, not `== 2`, so the three-word term `a b c` also
gets the paired clauses (built from its first two words) — refuting
"exactly when the term splits into exactly two whitespace-separated
words". -/
theorem c3_pair_clause_counterexample :
    ("(startswith(firstname,'a') and startswith(lastname,'b'))".data
        ∈ combinedFilters "a b c".data)
    ∧ (jsSplitWs (trim "a b c".data)).length ≠ 2 := by decide

/-- Claim C3 (amended): `buildSearchFilter` always produces the three
OR'd prefix clauses on firstname, lastname and email, and adds the two
paired clauses (straight and reversed, built from the first two words)
exactly when the term splits into two or more whitespace-separated words;
for `John Doe` the five clauses are exactly the expected ones. -/
theorem c3_search_filter_clauses (s : Str) :
    ("startswith(firstname,'".data ++ escQ s ++ "')".data) ∈ combinedFilters s
    ∧ ("startswith(lastname,'".data ++ escQ s ++ "')".data) ∈ combinedFilters s
    ∧ ("startswith(internalemailaddress,'".data ++ escQ s ++ "')".data) ∈ combinedFilters s
    ∧ ((("(startswith(firstname,'".data ++ escQ ((jsSplitWs (trim s)).getD 0 [])
          ++ "') and startswith(lastname,'".data ++ escQ ((jsSplitWs (trim s)).getD 1 [])
          ++ "'))".data) ∈ combinedFilters s)
        ↔ 1 < (jsSplitWs (trim s)).length)
    ∧ ((("(startswith(lastname,'".data ++ escQ ((jsSplitWs (trim s)).getD 0 [])
          ++ "') and startswith(firstname,'".data ++ escQ ((jsSplitWs (trim s)).getD 1 [])
          ++ "'))".data) ∈ combinedFilters s)
        ↔ 1 < (jsSplitWs (trim s)).length)
    ∧ combinedFilters "John Doe".data
        = ["startswith(firstname,'John Doe')".data,
           "startswith(lastname,'John Doe')".data,
           "startswith(internalemailaddress,'John Doe')".data,
           "(startswith(firstname,'John') and startswith(lastname,'Doe'))".data,
           "(startswith(lastname,'John') and startswith(firstname,'Doe'))".data] := by
  by_cases h2 : 1 < (jsSplitWs (trim s)).length
  · simp only [combinedFilters, if_pos h2]
    refine ⟨by simp, by simp, by simp, ?_, ?_, by decide⟩
    · exact ⟨fun _ => h2, fun _ => by simp⟩
    · exact ⟨fun _ => h2, fun _ => by simp⟩
  · simp only [combinedFilters, if_neg h2]
    refine ⟨by simp, by simp, by simp, ?_, ?_, by decide⟩
    · constructor
      · intro hmem
        simp only [List.mem_cons, List.not_mem_nil, or_false] at hmem
        rcases hmem with h | h | h <;>
          exact absurd h (ne_of_headD (show ('(' : Char) ≠ 's' by decide))
      · intro hlt
        exact absurd hlt h2
    · constructor
      · intro hmem
        simp only [List.mem_cons, List.not_mem_nil, or_false] at hmem
        rcases hmem with h | h | h <;>
          exact absurd h (ne_of_headD (show ('(' : Char) ≠ 's' by decide))
      · intro hlt
        exact absurd hlt h2

/-- Outside a literal the scanner ignores quote-free text. -/
theorem foldl_stepLit_skip (k : Str) (hk : quoteChar ∉ k) (cur : Str) (acc : List Str) :
    List.foldl stepLit ⟨LitMode.outside, cur, acc⟩ k = ⟨LitMode.outside, cur, acc⟩ := by
  induction k with
  | nil => rfl
  | cons c cs ih =>
    have hc : c ≠ quoteChar := fun h => hk (h ▸ List.mem_cons_self c cs)
    rw [List.foldl_cons, show stepLit ⟨LitMode.outside, cur, acc⟩ c
          = ⟨LitMode.outside, cur, acc⟩ from by simp [stepLit, hc]]
    exact ih (fun h => hk (List.mem_cons_of_mem c h))

/-- An opening quote enters literal mode with an empty current literal. -/
theorem foldl_stepLit_openQ (cur : Str) (acc : List Str) :
    List.foldl stepLit ⟨LitMode.outside, cur, acc⟩ [quoteChar]
      = ⟨LitMode.inside, [], acc⟩ := by
  simp [stepLit]

/-- Inside a literal, scanning the quote-escaped form of `w` appends
exactly `w` to the current literal: every `''` pair collapses back to a
single quote and never closes the literal. -/
theorem foldl_stepLit_escQ (w : Str) (cur : Str) (acc : List Str) :
    List.foldl stepLit ⟨LitMode.inside, cur, acc⟩ (escQ w)
      = ⟨LitMode.inside, cur ++ w, acc⟩ := by
  induction w generalizing cur with
  | nil => simp [escQ]
  | cons c cs ih =>
    by_cases hc : c = quoteChar
    · subst hc
      rw [show escQ (quoteChar :: cs) = quoteChar :: quoteChar :: escQ cs from by
            simp [escQ]]
      rw [List.foldl_cons, List.foldl_cons]
      rw [show stepLit ⟨LitMode.inside, cur, acc⟩ quoteChar
            = ⟨LitMode.closing, cur, acc⟩ from by simp [stepLit]]
      rw [show stepLit ⟨LitMode.closing, cur, acc⟩ quoteChar
            = ⟨LitMode.inside, cur ++ [quoteChar], acc⟩ from by simp [stepLit]]
      rw [ih]
      simp
    · rw [show escQ (c :: cs) = c :: escQ cs from by simp [escQ, hc]]
      rw [List.foldl_cons]
      rw [show stepLit ⟨LitMode.inside, cur, acc⟩ c
            = ⟨LitMode.inside, cur ++ [c], acc⟩ from by simp [stepLit, hc]]
      rw [ih]
      simp

/-- A quote inside a literal moves to the pending-close mode. -/
theorem foldl_stepLit_closeQ (cur : Str) (acc : List Str) :
    List.foldl stepLit ⟨LitMode.inside, cur, acc⟩ [quoteChar]
      = ⟨LitMode.closing, cur, acc⟩ := by
  simp [stepLit]

/-- After a pending close, any quote-free non-empty text closes the
literal (pushing it onto the accumulator) and is skipped outside. -/
theorem foldl_stepLit_closeRun (k : Str) (hk : quoteChar ∉ k) (hne : k ≠ [])
    (cur : Str) (acc : List Str) :
    List.foldl stepLit ⟨LitMode.closing, cur, acc⟩ k
      = ⟨LitMode.outside, [], acc ++ [cur]⟩ := by
  cases k with
  | nil => exact absurd rfl hne
  | cons c cs =>
    have hc : c ≠ quoteChar := fun h => hk (h ▸ List.mem_cons_self c cs)
    rw [List.foldl_cons, show stepLit ⟨LitMode.closing, cur, acc⟩ c
          = ⟨LitMode.outside, [], acc ++ [cur]⟩ from by simp [stepLit, hc]]
    exact foldl_stepLit_skip cs (fun h => hk (List.mem_cons_of_mem c h)) _ _

/-- One whole literal block: quote-free scaffold `k`, opening quote, the
escaped payload `w`, closing quote, quote-free non-empty scaffold `t` —
scanning it from outside mode records exactly the payload `w` and returns
to outside mode before the remaining input `rest`. -/
theorem foldl_stepLit_block (k t : Str) (hk : quoteChar ∉ k) (ht : quoteChar ∉ t)
    (htne : t ≠ []) (w rest cur : Str) (acc : List Str) :
    List.foldl stepLit ⟨LitMode.outside, cur, acc⟩
        ((k ++ ([quoteChar] ++ (escQ w ++ ([quoteChar] ++ t)))) ++ rest)
      = List.foldl stepLit ⟨LitMode.outside, [], acc ++ [w]⟩ rest := by
  rw [List.foldl_append, List.foldl_append, List.foldl_append, List.foldl_append,
      List.foldl_append]
  rw [foldl_stepLit_skip k hk, foldl_stepLit_openQ, foldl_stepLit_escQ,
      foldl_stepLit_closeQ, foldl_stepLit_closeRun t ht htne]
  simp

set_option maxRecDepth 40000 in
/-- Claim C9: for every search term — quote characters included — the
filter built by `buildSearchFilter` is a well-formed OData expression
whose string literals, after undoing the `''` escaping, are exactly the
raw payloads (the term three times and, in the multi-word case, the first
two words twice each). Every single quote of the term is doubled before
interpolation — in the paired clauses too — so no quote from user input
escapes its literal into the filter expression. -/
theorem c9_quotes_escaped_in_filter (s : Str) :
    lits (buildSearchFilter s) = some (searchFilterPayloads s) := by
  by_cases h2 : 1 < (jsSplitWs (trim s)).length
  · have hshape : buildSearchFilter s
        = ("(startswith(firstname,".data
            ++ ([quoteChar] ++ (escQ s ++ ([quoteChar] ++ ")".data)))) ++
          ((" or startswith(lastname,".data
            ++ ([quoteChar] ++ (escQ s ++ ([quoteChar] ++ ")".data)))) ++
          ((" or startswith(internalemailaddress,".data
            ++ ([quoteChar] ++ (escQ s ++ ([quoteChar] ++ ")".data)))) ++
          ((" or (startswith(firstname,".data
            ++ ([quoteChar] ++ (escQ ((jsSplitWs (trim s)).getD 0 [])
                ++ ([quoteChar] ++ ")".data)))) ++
          ((" and startswith(lastname,".data
            ++ ([quoteChar] ++ (escQ ((jsSplitWs (trim s)).getD 1 [])
                ++ ([quoteChar] ++ "))".data)))) ++
          ((" or (startswith(lastname,".data
            ++ ([quoteChar] ++ (escQ ((jsSplitWs (trim s)).getD 0 [])
                ++ ([quoteChar] ++ ")".data)))) ++
          ((" and startswith(firstname,".data
            ++ ([quoteChar] ++ (escQ ((jsSplitWs (trim s)).getD 1 [])
                ++ ([quoteChar] ++ "))".data)))) ++
          ")".data)))))) := by
      simp only [buildSearchFilter, combinedFilters, if_pos h2, joinWith]
      rw [show ([quoteChar] : Str) = "'".data from by decide]
      simp [List.append_assoc]
    rw [hshape]
    simp only [lits, runLits]
    rw [foldl_stepLit_block "(startswith(firstname,".data ")".data
      (by decide) (by decide) (by decide)]
    rw [foldl_stepLit_block " or startswith(lastname,".data ")".data
      (by decide) (by decide) (by decide)]
    rw [foldl_stepLit_block " or startswith(internalemailaddress,".data ")".data
      (by decide) (by decide) (by decide)]
    rw [foldl_stepLit_block " or (startswith(firstname,".data ")".data
      (by decide) (by decide) (by decide)]
    rw [foldl_stepLit_block " and startswith(lastname,".data "))".data
      (by decide) (by decide) (by decide)]
    rw [foldl_stepLit_block " or (startswith(lastname,".data ")".data
      (by decide) (by decide) (by decide)]
    rw [foldl_stepLit_block " and startswith(firstname,".data "))".data
      (by decide) (by decide) (by decide)]
    rw [foldl_stepLit_skip ")".data (by decide)]
    simp [searchFilterPayloads, if_pos h2]
  · have hshape : buildSearchFilter s
        = ("(startswith(firstname,".data
            ++ ([quoteChar] ++ (escQ s ++ ([quoteChar] ++ ")".data)))) ++
          ((" or startswith(lastname,".data
            ++ ([quoteChar] ++ (escQ s ++ ([quoteChar] ++ ")".data)))) ++
          ((" or startswith(internalemailaddress,".data
            ++ ([quoteChar] ++ (escQ s ++ ([quoteChar] ++ ")".data)))) ++
          ")".data)) := by
      simp only [buildSearchFilter, combinedFilters, if_neg h2, joinWith]
      rw [show ([quoteChar] : Str) = "'".data from by decide]
      simp [List.append_assoc]
    rw [hshape]
    simp only [lits, runLits]
    rw [foldl_stepLit_block "(startswith(firstname,".data ")".data
      (by decide) (by decide) (by decide)]
    rw [foldl_stepLit_block " or startswith(lastname,".data ")".data
      (by decide) (by decide) (by decide)]
    rw [foldl_stepLit_block " or startswith(internalemailaddress,".data ")".data
      (by decide) (by decide) (by decide)]
    rw [foldl_stepLit_skip ")".data (by decide)]
    simp [searchFilterPayloads, if_neg h2]

end Correspondence
